import Mathlib

/-! Verification development for the 96-well plate metadata helper
    implemented in src/App.js.  The JavaScript code is shallowly embedded:
    JS strings become Lean String values, JS objects with string keys become
    association lists that keep insertion order, JS numbers that may be NaN
    become Option Int values, and every stateful handler becomes a pure
    function on an explicit state. -/

/- ===== Decimal numerals: model of the JS number-to-string conversion ===== -/
/-- Character for a single decimal digit (code point 48 + n). -/
def digitChar (n : Nat) : Char := Char.ofNat (48 + n)

/-- Fuel-driven digit expansion (structural, so the kernel can evaluate it). -/
def decDigitsCore : Nat → Nat → List Char
  | 0, _ => []
  | fuel + 1, n =>
    if n < 10 then [digitChar n]
    else decDigitsCore fuel (n / 10) ++ [digitChar (n % 10)]

/-- Decimal digit list of a natural number, most significant digit first.
    This is how JS prints a nonnegative integer inside a template string. -/
def decDigits (n : Nat) : List Char := decDigitsCore (n + 1) n

/-- Decimal numeral of a natural number as a string. -/
def decRepr (n : Nat) : String := String.mk (decDigits n)

/-- Value of a digit list (inverse of decDigits). -/
def decVal (cs : List Char) : Nat := cs.foldl (fun a c => 10 * a + (c.toNat - 48)) 0

/- ===== Character classes and basic string machinery ===== -/
/-- Decimal digit test. -/
def isDigitCh (c : Char) : Bool := 48 ≤ c.toNat && c.toNat ≤ 57

/-- JS whitespace test (the common characters matched by \s and trim). -/
def isWsCh (c : Char) : Bool :=
  c = ' ' || c = '\t' || c = '\n' || c = '\r' || c = Char.ofNat 11 || c = Char.ofNat 12

/- ===== Parsing an integer: model of parseInt(s, 10) ===== -/
/-- Longest digit prefix, as a value; none when there is no digit. -/
def parseDigits (cs : List Char) : Option Nat :=
  let ds := cs.takeWhile isDigitCh
  if ds.isEmpty then none else some (decVal ds)

/-- Model of the JS parseInt(s, 10): skip leading whitespace, read an
    optional sign, then the longest digit prefix; NaN (none) otherwise. -/
def jsParseIntData (cs : List Char) : Option Int :=
  let cs1 := cs.dropWhile isWsCh
  if cs1.head? = some '-' then (parseDigits cs1.tail).map (fun v => -(v : Int))
  else if cs1.head? = some '+' then (parseDigits cs1.tail).map (fun v => (v : Int))
  else (parseDigits cs1).map (fun v => (v : Int))

def jsParseInt (s : String) : Option Int := jsParseIntData s.data

/- ===== Data model ===== -/
/-- Record with the seven metadata fields of one well (the shape of
    DEFAULT_METADATA in App.js). -/
structure WellMetadata where
  base_strain : String
  receptor : String
  anchor : String
  nanobody : String
  negsel : String
  dilution : String
  notes : String
deriving DecidableEq, Repr

/-- DEFAULT_METADATA: every field defaults to the empty string. -/
def DEFAULT_METADATA : WellMetadata := ⟨"", "", "", "", "", "", ""⟩

/-- The seven field names, as an enumeration. -/
inductive MetaField where
  | base_strain | receptor | anchor | nanobody | negsel | dilution | notes
deriving DecidableEq, Repr, Fintype

def getField (d : WellMetadata) : MetaField → String
  | .base_strain => d.base_strain
  | .receptor => d.receptor
  | .anchor => d.anchor
  | .nanobody => d.nanobody
  | .negsel => d.negsel
  | .dilution => d.dilution
  | .notes => d.notes

/-- Dynamic field write (the computed-key update in applyBulkUpdate). -/
def setField (d : WellMetadata) (f : MetaField) (v : String) : WellMetadata :=
  match f with
  | .base_strain => { d with base_strain := v }
  | .receptor => { d with receptor := v }
  | .anchor => { d with anchor := v }
  | .nanobody => { d with nanobody := v }
  | .negsel => { d with negsel := v }
  | .dilution => { d with dilution := v }
  | .notes => { d with notes := v }

/-- A metadata map: a JS object keyed by well id, kept in insertion order. -/
abbrev Metadata := List (String × WellMetadata)

/-- One plate: its id (a JS number, none models NaN) and its metadata map. -/
structure Plate where
  id : Option Int
  metadata : Metadata
deriving DecidableEq, Repr

/-- JS object property write: overwrite in place when the key is present,
    append a new entry otherwise. -/
def objSet (m : Metadata) (k : String) (v : WellMetadata) : Metadata :=
  match m.lookup k with
  | some _ => m.map (fun e => if e.1 = k then (e.1, v) else e)
  | none => m ++ [(k, v)]

/-- initializePlateMetadata from App.js: the 8 x 12 grid of well ids,
    row letter first (String.fromCharCode(65 + row)) then column number,
    each mapped to the default record. -/
def initializePlateMetadata : Metadata :=
  (List.range 8).flatMap (fun row =>
    (List.range 12).map (fun col =>
      (String.mk [Char.ofNat (65 + row)] ++ decRepr (col + 1), DEFAULT_METADATA)))

/-- Split a character list at every occurrence of a separator (the model of
    how the CSV parser cuts lines and cells, for quote-free content). -/
def splitChData (sep : Char) : List Char → List (List Char)
  | [] => [[]]
  | c :: cs =>
    if c = sep then [] :: splitChData sep cs
    else
      match splitChData sep cs with
      | [] => [[c]]
      | g :: gs => (c :: g) :: gs

/- ===== Remaining string helpers ===== -/
/-- Characters of a string with leading and trailing whitespace removed. -/
def trimData (l : List Char) : List Char :=
  ((l.dropWhile isWsCh).reverse.dropWhile isWsCh).reverse

/-- Model of the JS String.trim. -/
def jsTrim (s : String) : String := String.mk (trimData s.data)

/-- Fuel-driven replacement of every whitespace run by one underscore
    (the regex replace applied to header tokens).  The fuel equals the
    remaining length, so it never runs out. -/
def collapseWsCore : Nat → List Char → List Char
  | 0, _ => []
  | _, [] => []
  | fuel + 1, c :: cs =>
    if isWsCh c then '_' :: collapseWsCore fuel (cs.dropWhile isWsCh)
    else c :: collapseWsCore fuel cs

def collapseWs (l : List Char) : List Char := collapseWsCore l.length l

/-- Header normalization in handleCsvUpload: trim, then replace every
    whitespace run by an underscore. -/
def normalizeHeader (s : String) : String := String.mk (collapseWs (trimData s.data))

/-- Model of the JS String.replace with a plain-string pattern and empty
    replacement: remove the first occurrence of the pattern. -/
def replaceFirstData (pat : List Char) : List Char → List Char
  | [] => []
  | c :: cs =>
    if pat.isPrefixOf (c :: cs) then (c :: cs).drop pat.length
    else c :: replaceFirstData pat cs

def jsReplaceFirst (s pat : String) : String := String.mk (replaceFirstData pat.data s.data)

/-- Model of the JS String.startsWith. -/
def strStartsWith (s pre : String) : Bool := pre.data.isPrefixOf s.data

/- ===== PlateCollectionEditor: the four structural operations ===== -/
/-- App state relevant to the structural operations: the ordered plates and
    the index of the active plate. -/
structure AppState where
  plates : List Plate
  currentPlateIndex : Nat
deriving DecidableEq, Repr

/-- Renumbering pass shared by every structural operation: the plate at
    position i receives id i + k. -/
def renumberFrom (k : Int) : List Plate → List Plate
  | [] => []
  | p :: ps => { p with id := some k } :: renumberFrom (k + 1) ps

def renumber (l : List Plate) : List Plate := renumberFrom 1 l

/-- addNewPlate: insert a default-initialized plate right after the current
    one (slice up to currentPlateIndex + 1, new plate, rest), renumber,
    and move to the inserted plate. -/
def addNewPlate (s : AppState) : AppState :=
  let newPlate : Plate :=
    { id := some ((s.plates.length : Int) + 1), metadata := initializePlateMetadata }
  let updated :=
    s.plates.take (s.currentPlateIndex + 1) ++ newPlate :: s.plates.drop (s.currentPlateIndex + 1)
  { plates := renumber updated, currentPlateIndex := s.currentPlateIndex + 1 }

/-- copyCurrentPlate: like addNewPlate but the inserted plate carries a deep
    copy of the current metadata (the JSON round trip of App.js is the
    identity on these pure values).  When the current index is out of range
    the JS code would throw on JSON.parse; that branch is unreachable under
    the state invariant and is modelled as a no-op. -/
def copyCurrentPlate (s : AppState) : AppState :=
  match s.plates.get? s.currentPlateIndex with
  | none => s
  | some p =>
    let copied : Plate := { id := some ((s.plates.length : Int) + 1), metadata := p.metadata }
    let updated :=
      s.plates.take (s.currentPlateIndex + 1) ++ copied :: s.plates.drop (s.currentPlateIndex + 1)
    { plates := renumber updated, currentPlateIndex := s.currentPlateIndex + 1 }

/-- deleteCurrentPlate: refuse on a single-plate collection (alert text is
    the reported error); otherwise drop the current plate, renumber, and
    make max (0, index - 1) current (natural subtraction). -/
def deleteCurrentPlate (s : AppState) : AppState × Option String :=
  if s.plates.length = 1 then (s, some "You must have at least one plate.")
  else
    ({ plates := renumber (s.plates.eraseIdx s.currentPlateIndex),
       currentPlateIndex := s.currentPlateIndex - 1 }, none)

/-- moveCurrentPlate: refuse on a single-plate collection or an out-of-range
    target; otherwise remove the current plate, reinsert it at the target
    position, renumber, and make the target current.  An out-of-range
    current index (unreachable under the invariant; JS would splice an
    undefined value) is modelled as a no-op. -/
def moveCurrentPlate (s : AppState) (target : Int) : AppState × Option String :=
  if s.plates.length = 1 then (s, some "You must have at least one plate.")
  else if target < 0 ∨ (s.plates.length : Int) ≤ target then (s, some "Invalid plate position.")
  else
    match s.plates.get? s.currentPlateIndex with
    | none => (s, none)
    | some p =>
      let removed := s.plates.eraseIdx s.currentPlateIndex
      let inserted := removed.take target.toNat ++ p :: removed.drop target.toNat
      ({ plates := renumber inserted, currentPlateIndex := target.toNat }, none)

/-- The four structural operations, as user commands. -/
inductive StructuralOp where
  | addAfter
  | duplicateAfter
  | deleteAt
  | moveTo (target : Int)
deriving DecidableEq, Repr

def applyOp (s : AppState) : StructuralOp → AppState
  | .addAfter => addNewPlate s
  | .duplicateAfter => copyCurrentPlate s
  | .deleteAt => (deleteCurrentPlate s).1
  | .moveTo t => (moveCurrentPlate s t).1

def applyOps (s : AppState) (ops : List StructuralOp) : AppState := ops.foldl applyOp s

/-- Numbering invariant: ids are exactly 1..length in order. -/
def idsSequential (l : List Plate) : Prop :=
  l.map Plate.id = (List.range l.length).map (fun (i : Nat) => some ((i : Int) + 1))

instance (l : List Plate) : Decidable (idsSequential l) := by
  unfold idsSequential
  infer_instance

/-- Full state invariant maintained by the app. -/
def stateInv (s : AppState) : Prop :=
  idsSequential s.plates ∧ 1 ≤ s.plates.length ∧ s.currentPlateIndex < s.plates.length

instance (s : AppState) : Decidable (stateInv s) := by
  unfold stateInv
  infer_instance

/-- Concrete run backing C3: two plates, then add, duplicate, move, delete. -/
def c3State : AppState :=
  { plates := [{ id := some 1, metadata := [] }, { id := some 2, metadata := [] }],
    currentPlateIndex := 0 }

/-- Concrete two-plate state backing C7 and C8. -/
def c7State : AppState :=
  { plates := [{ id := some 1, metadata := [] }, { id := some 2, metadata := [] }],
    currentPlateIndex := 1 }

/- ===== MetadataEditor: applyBulkUpdate ===== -/
/-- Computed-key object write used by applyBulkUpdate: replace the record
    stored under one well key, spreading the old record and overwriting the
    displayed field.  The selection always names wells rendered from the
    active plate, so only the overwrite-in-place case is modelled (JS would
    append a partial record for a key that is absent). -/
def updateWellField (m : Metadata) (w : String) (f : MetaField) (v : String) : Metadata :=
  m.map (fun e => if e.1 = w then (e.1, setField e.2 f v) else e)

/-- applyBulkUpdate: return early when no wells are selected, otherwise set
    the displayed field to the bulk value on every selected well of the
    current plate.  An out-of-range current index (unreachable in the app;
    JS would throw reading the metadata of undefined) is a no-op. -/
def applyBulkUpdate (plates : List Plate) (cur : Nat) (sel : List String)
    (f : MetaField) (v : String) : List Plate :=
  if sel.isEmpty then plates
  else
    match plates.get? cur with
    | none => plates
    | some p =>
      plates.set cur
        { p with metadata := sel.foldl (fun m w => updateWellField m w f v) p.metadata }

/-- Entry j of the metadata map of plate i, when both exist. -/
def plateMetaEntry (l : List Plate) (i j : Nat) : Option (String × WellMetadata) :=
  (l.get? i).bind (fun p => p.metadata.get? j)

/-- Concrete one-plate state backing C9: select wells A1 and A2 and set the
    dilution field. -/
def c9Plates : List Plate := [{ id := some 1, metadata := initializePlateMetadata }]

/- ===== StrainJoinResolver: searchStrainByNumber ===== -/
/-- A reference row: a record keyed by the derived header names. -/
abbrev RefRow := List (String × String)

/-- First reference row whose Strain_Name cell equals the key exactly
    (an absent cell, modelled as none, never matches a string). -/
def findRef (csvData : List RefRow) (s : String) : Option RefRow :=
  csvData.find? (fun r => r.lookup "Strain_Name" == some s)

/-- Per-well join: skip wells with an empty base_strain, otherwise look up
    the first matching reference row and overwrite negsel, anchor, receptor
    from Construct_1, Construct_2, Construct_3 (missing cells become the
    empty string); leave the well unchanged when nothing matches. -/
def joinWell (csvData : List RefRow) (d : WellMetadata) : WellMetadata :=
  if d.base_strain = "" then d
  else
    match findRef csvData d.base_strain with
    | none => d
    | some r =>
      { d with
        negsel := (r.lookup "Construct_1").getD "",
        anchor := (r.lookup "Construct_2").getD "",
        receptor := (r.lookup "Construct_3").getD "" }

/-- searchStrainByNumber: apply the per-well join to every well of every
    plate.  The reference table is only read; the function returns plates
    and cannot change csvData. -/
def searchStrainByNumber (csvData : List RefRow) (plates : List Plate) : List Plate :=
  plates.map (fun p =>
    { p with metadata := p.metadata.map (fun e => (e.1, joinWell csvData e.2)) })

/-- Scenario backing C6: one well with base_strain S1 joined against one
    matching reference row. -/
def c6Table : List RefRow :=
  [[("Strain_Name", "S1"), ("Construct_1", "N"), ("Construct_2", "A"), ("Construct_3", "R")]]

def c6Plates : List Plate :=
  [{ id := some 1,
     metadata := [("A1",
       { base_strain := "S1", receptor := "", anchor := "", nanobody := "nb",
         negsel := "", dilution := "", notes := "note" })] }]

def c6Well : WellMetadata :=
  { base_strain := "S1", receptor := "", anchor := "", nanobody := "nb",
    negsel := "", dilution := "", notes := "note" }

/- ===== ReferenceTableLoader: handleCsvUpload ===== -/
/-- What one own property of the JS header-count object can hold: nothing
    yet, the NaN a prototype function coerces to under ++, or a number
    (the code only ever stores 1 and increments). -/
inductive JsCount where
  | absent
  | nan
  | num (n : Nat)
deriving DecidableEq, Repr

/-- The function-valued own properties of Object.prototype.  The counter
    object is a plain object literal, so property reads on it fall through
    to these: on a fresh key with one of these names the truthiness test
    sees the inherited function (truthy) and the increment coerces it to
    NaN.  The accessor __proto__ is handled separately. -/
def protoFnMembers : List String :=
  ["constructor", "hasOwnProperty", "isPrototypeOf", "propertyIsEnumerable",
   "toLocaleString", "toString", "valueOf", "__defineGetter__", "__defineSetter__",
   "__lookupGetter__", "__lookupSetter__"]

/-- Header de-duplication pass, with the counter object's prototype chain
    modelled.  An own numeric count n ≥ 1 is truthy: increment and emit
    name_(n+1).  An own 0 or NaN is falsy: store 1 and keep the name (NaN
    arises after a prototype collision).  On a key with no own property
    the read falls through to Object.prototype: a function member there is
    truthy but increments to NaN, emitting name_NaN; reading __proto__
    yields Object.prototype itself (truthy), the increment's write of NaN
    is silently ignored by the __proto__ setter, and the template then
    stringifies the prototype object; every other fresh key reads
    undefined (falsy), stores 1 and keeps the name. -/
def uniquifyCore (cnt : String → JsCount) : List String → List String
  | [] => []
  | h :: t =>
    match cnt h with
    | .num (n + 1) =>
      (h ++ "_" ++ decRepr (n + 2)) ::
        uniquifyCore (fun x => if x = h then .num (n + 2) else cnt x) t
    | .num 0 => h :: uniquifyCore (fun x => if x = h then .num 1 else cnt x) t
    | .nan => h :: uniquifyCore (fun x => if x = h then .num 1 else cnt x) t
    | .absent =>
      if h = "__proto__" then (h ++ "_[object Object]") :: uniquifyCore cnt t
      else if h ∈ protoFnMembers then
        (h ++ "_NaN") :: uniquifyCore (fun x => if x = h then .nan else cnt x) t
      else h :: uniquifyCore (fun x => if x = h then .num 1 else cnt x) t

def uniquify (l : List String) : List String := uniquifyCore (fun _ => .absent) l

/-- Positional record build: rowData[key] = row[index] or the empty string
    for a missing trailing cell.  (When the de-duplicated headers are
    distinct, which is the only case reachable with well-formed input, this
    association list has unique keys exactly like the JS object.) -/
def zipRecord : List String → List String → List (String × String)
  | [], _ => []
  | h :: hs, [] => (h, "") :: zipRecord hs []
  | h :: hs, c :: cs => (h, c) :: zipRecord hs cs

/-- handleCsvUpload: refuse inputs with fewer than two rows (the previous
    table is retained, modelled by none); otherwise normalize and
    de-duplicate the headers taken from the second row, convert the rows
    from index 1 on into records, and drop records whose every value is
    empty. -/
def handleCsvUpload (grid : List (List String)) : Option (List RefRow) :=
  if grid.length < 2 then none
  else
    let uniqueHeaders := uniquify (((grid.get? 1).getD []).map normalizeHeader)
    some (((grid.drop 1).map (fun row => zipRecord uniqueHeaders row)).filter
      (fun r => r.any (fun e => !(e.2 == ""))))

/-- Is this row a Block marker: a non-empty first cell starting with the
    literal Block. -/
def isBlockRow (row : List String) : Bool :=
  match row.head? with
  | none => false
  | some s => !(s == "") && strStartsWith s "Block"

/-- Conversion of one positional cell of a row-letter row:
    missing or empty cells give the empty string, others are trimmed. -/
def cellTrimOr (row : List String) (i : Nat) : String :=
  match row.get? i with
  | none => ""
  | some s => if s == "" then "" else jsTrim s

/-- Write the 12 base-strain cells of one row letter (columns 1..12); every
    written record is a fresh default record with only base_strain set. -/
def setRowLetter (m : Metadata) (label : String) (row : List String) : Metadata :=
  (List.range 12).foldl (fun mm c =>
    objSet mm (label ++ decRepr (c + 1))
      { DEFAULT_METADATA with base_strain := cellTrimOr row (c + 1) }) m

/-- Handling of one non-marker row against the open plate: when the first
    cell is one of the eight row letters, fill that row of the plate,
    otherwise leave the plate alone. -/
def applyLetterRow (p : Plate) (row : List String) : Plate :=
  match row.head? with
  | none => p
  | some label =>
    if label ∈ ["A", "B", "C", "D", "E", "F", "G", "H"] then
      { p with metadata := setRowLetter p.metadata label row }
    else p

/-- One step of the Layout-format scan: a Block marker flushes the plate
    under construction (when one is open) and opens a fresh
    fully-initialized one, parsing the trailing number (NaN modelled as
    none); a row-letter row fills one row of the open plate; anything else,
    or any data row before the first marker, changes nothing.  The two
    pattern arms are the currentPlate-null and currentPlate-set cases of
    the JS scan. -/
def layoutStep : List Plate × Option Plate → List String → List Plate × Option Plate
  | (acc, none), row =>
    if isBlockRow row then
      (acc, some { id := jsParseInt (jsReplaceFirst ((row.head?).getD "") "Block "),
                   metadata := initializePlateMetadata })
    else (acc, none)
  | (acc, some p), row =>
    if isBlockRow row then
      (acc ++ [p], some { id := jsParseInt (jsReplaceFirst ((row.head?).getD "") "Block "),
                          metadata := initializePlateMetadata })
    else (acc, some (applyLetterRow p row))

/-- Layout-format import: scan all rows, then flush the last open plate. -/
def layoutFromGrid (grid : List (List String)) : List Plate :=
  match grid.foldl layoutStep ([], none) with
  | (acc, none) => acc
  | (acc, some p) => acc ++ [p]

theorem decDigitsCore_congr {n : Nat} : ∀ {f1 f2 : Nat}, n < f1 → n < f2 →
    decDigitsCore f1 n = decDigitsCore f2 n := by
  induction n using Nat.strong_induction_on with
  | _ n ih =>
    intro f1 f2 h1 h2
    cases f1 with
    | zero => omega
    | succ g1 =>
      cases f2 with
      | zero => omega
      | succ g2 =>
        rw [decDigitsCore, decDigitsCore]
        by_cases h : n < 10
        · rw [if_pos h, if_pos h]
        · have hd : n / 10 < n := Nat.div_lt_self (by omega) (by omega)
          rw [if_neg h, if_neg h, @ih (n / 10) hd g1 g2 (by omega) (by omega)]

theorem decDigits_eq (n : Nat) :
    decDigits n = if n < 10 then [digitChar n] else decDigits (n / 10) ++ [digitChar (n % 10)] := by
  rw [decDigits, decDigitsCore]
  by_cases h : n < 10
  · rw [if_pos h, if_pos h]
  · have hd : n / 10 < n := Nat.div_lt_self (by omega) (by omega)
    rw [if_neg h, if_neg h, decDigits,
      @decDigitsCore_congr (n / 10) n (n / 10 + 1) (by omega) (by omega)]

theorem digitChar_toNat {n : Nat} (h : n < 10) : (digitChar n).toNat = 48 + n := by
  interval_cases n <;> decide

theorem decVal_append_digit (cs : List Char) (c : Char) :
    decVal (cs ++ [c]) = 10 * decVal cs + (c.toNat - 48) := by
  simp [decVal, List.foldl_append]

theorem decVal_decDigits (n : Nat) : decVal (decDigits n) = n := by
  induction n using Nat.strong_induction_on with
  | _ n ih =>
    rw [decDigits_eq]
    by_cases h : n < 10
    · rw [if_pos h]
      simp [decVal, digitChar_toNat h]
    · rw [if_neg h, decVal_append_digit, ih (n / 10) (Nat.div_lt_self (by omega) (by omega)),
        digitChar_toNat (Nat.mod_lt n (by omega))]
      omega

theorem decRepr_inj {m n : Nat} (h : decRepr m = decRepr n) : m = n := by
  have hd : decDigits m = decDigits n := congrArg String.data h
  calc m = decVal (decDigits m) := (decVal_decDigits m).symm
    _ = decVal (decDigits n) := by rw [hd]
    _ = n := decVal_decDigits n

theorem getField_setField (d : WellMetadata) (f f' : MetaField) (v : String) :
    getField (setField d f v) f' = if f' = f then v else getField d f' := by
  cases f <;> cases f' <;> simp [getField, setField]

theorem splitChData_ne_nil (sep : Char) (l : List Char) : splitChData sep l ≠ [] := by
  cases l with
  | nil => simp [splitChData]
  | cons c cs =>
    rw [splitChData]
    by_cases h : c = sep
    · simp [h]
    · rw [if_neg h]
      cases splitChData sep cs <;> simp

theorem renumberFrom_map_id (k : Int) (l : List Plate) :
    (renumberFrom k l).map Plate.id
      = (List.range l.length).map (fun (i : Nat) => some (k + (i : Int))) := by
  induction l generalizing k with
  | nil => rfl
  | cons p ps ih =>
    rw [renumberFrom, List.map_cons, ih (k + 1), List.length_cons, List.range_succ_eq_map,
      List.map_cons, List.map_map]
    refine congrArg₂ _ (by simp) (List.map_congr_left ?_)
    intro i _
    simp only [Function.comp_apply]
    congr 1
    push_cast
    ring

theorem renumberFrom_length (k : Int) (l : List Plate) :
    (renumberFrom k l).length = l.length := by
  induction l generalizing k with
  | nil => rfl
  | cons p ps ih => rw [renumberFrom, List.length_cons, List.length_cons, ih (k + 1)]

theorem renumberFrom_map_metadata (k : Int) (l : List Plate) :
    (renumberFrom k l).map Plate.metadata = l.map Plate.metadata := by
  induction l generalizing k with
  | nil => rfl
  | cons p ps ih => rw [renumberFrom, List.map_cons, List.map_cons, ih (k + 1)]

theorem renumber_idsSequential (l : List Plate) : idsSequential (renumber l) := by
  rw [idsSequential, renumber, renumberFrom_map_id, renumberFrom_length]
  exact List.map_congr_left (fun i _ => by rw [Int.add_comm])

theorem renumber_length (l : List Plate) : (renumber l).length = l.length :=
  renumberFrom_length 1 l

theorem insert_take_drop_length (l : List Plate) (i : Nat) (p : Plate) :
    (l.take i ++ p :: l.drop i).length = l.length + 1 := by
  simp only [List.length_append, List.length_cons, List.length_take, List.length_drop]
  omega

theorem stateInv_addNewPlate {s : AppState} (h : stateInv s) : stateInv (addNewPlate s) := by
  obtain ⟨hids, hlen, hcur⟩ := h
  refine ⟨renumber_idsSequential _, ?_, ?_⟩ <;>
    rw [addNewPlate] <;>
    simp only [renumber_length, insert_take_drop_length] <;>
    omega

theorem stateInv_copyCurrentPlate {s : AppState} (h : stateInv s) :
    stateInv (copyCurrentPlate s) := by
  obtain ⟨hids, hlen, hcur⟩ := h
  rw [copyCurrentPlate, List.get?_eq_get hcur]
  refine ⟨renumber_idsSequential _, ?_, ?_⟩ <;>
    simp only [renumber_length, insert_take_drop_length] <;>
    omega

theorem stateInv_deleteCurrentPlate {s : AppState} (h : stateInv s) :
    stateInv (deleteCurrentPlate s).1 := by
  obtain ⟨hids, hlen, hcur⟩ := h
  rw [deleteCurrentPlate]
  by_cases h1 : s.plates.length = 1
  · rw [if_pos h1]
    exact ⟨hids, hlen, hcur⟩
  · rw [if_neg h1]
    have hlen2 : (s.plates.eraseIdx s.currentPlateIndex).length = s.plates.length - 1 := by
      rw [List.length_eraseIdx]
      simp [hcur]
    refine ⟨renumber_idsSequential _, ?_, ?_⟩ <;>
      simp only [renumber_length, hlen2] <;>
      omega

theorem stateInv_moveCurrentPlate {s : AppState} (t : Int) (h : stateInv s) :
    stateInv (moveCurrentPlate s t).1 := by
  obtain ⟨hids, hlen, hcur⟩ := h
  rw [moveCurrentPlate]
  by_cases h1 : s.plates.length = 1
  · rw [if_pos h1]
    exact ⟨hids, hlen, hcur⟩
  · rw [if_neg h1]
    by_cases h2 : t < 0 ∨ (s.plates.length : Int) ≤ t
    · rw [if_pos h2]
      exact ⟨hids, hlen, hcur⟩
    · rw [if_neg h2]
      rw [List.get?_eq_get hcur]
      push_neg at h2
      have hlen2 : (s.plates.eraseIdx s.currentPlateIndex).length = s.plates.length - 1 := by
        rw [List.length_eraseIdx]
        simp [hcur]
      refine ⟨renumber_idsSequential _, ?_, ?_⟩ <;>
        simp only [renumber_length, insert_take_drop_length, hlen2] <;>
        omega

theorem stateInv_applyOp {s : AppState} (op : StructuralOp) (h : stateInv s) :
    stateInv (applyOp s op) := by
  cases op with
  | addAfter => exact stateInv_addNewPlate h
  | duplicateAfter => exact stateInv_copyCurrentPlate h
  | deleteAt => exact stateInv_deleteCurrentPlate h
  | moveTo t => exact stateInv_moveCurrentPlate t h

theorem stateInv_applyOps {s : AppState} (ops : List StructuralOp) (h : stateInv s) :
    stateInv (applyOps s ops) := by
  induction ops generalizing s with
  | nil => exact h
  | cons op ops ih => exact ih (stateInv_applyOp op h)

/-- C3: starting from any collection that satisfies the numbering invariant
    (with a valid active index), after any sequence of the four structural
    operations the plate ids are exactly 1..length in array order and the
    length never drops below 1. -/
theorem c3_structural_ops_preserve_invariant (ops : List StructuralOp) (s : AppState)
    (h : stateInv s) :
    idsSequential (applyOps s ops).plates ∧ 1 ≤ (applyOps s ops).plates.length := by
  obtain ⟨h1, h2, _⟩ := stateInv_applyOps ops h
  exact ⟨h1, h2⟩

theorem c3_structural_ops_preserve_invariant_witness :
    idsSequential (applyOps c3State
      [.addAfter, .duplicateAfter, .moveTo 0, .deleteAt]).plates ∧
    1 ≤ (applyOps c3State [.addAfter, .duplicateAfter, .moveTo 0, .deleteAt]).plates.length :=
  c3_structural_ops_preserve_invariant [.addAfter, .duplicateAfter, .moveTo 0, .deleteAt]
    c3State (by decide)

/-- C7: deleting fails on a single-plate collection with the collection
    unchanged and an error reported; otherwise it removes the plate at the
    current index, renumbers the plates to 1..N, reports no error, and the
    new active index is the old index minus one (clamped at zero). -/
theorem c7_deleteAt_spec (s : AppState) (h : stateInv s) :
    (s.plates.length = 1 →
      (deleteCurrentPlate s).1 = s ∧
      (deleteCurrentPlate s).2 = some "You must have at least one plate.") ∧
    (1 < s.plates.length →
      (deleteCurrentPlate s).2 = none ∧
      (deleteCurrentPlate s).1.plates.map Plate.metadata
        = (s.plates.eraseIdx s.currentPlateIndex).map Plate.metadata ∧
      (deleteCurrentPlate s).1.plates.length = s.plates.length - 1 ∧
      idsSequential (deleteCurrentPlate s).1.plates ∧
      (deleteCurrentPlate s).1.currentPlateIndex = s.currentPlateIndex - 1) := by
  obtain ⟨hids, hlen, hcur⟩ := h
  by_cases h1 : s.plates.length = 1
  · refine ⟨fun _ => ?_, fun hlt => absurd h1 (by omega)⟩
    rw [deleteCurrentPlate, if_pos h1]
    exact ⟨rfl, rfl⟩
  · refine ⟨fun hh => absurd hh h1, fun hlt => ?_⟩
    rw [deleteCurrentPlate, if_neg h1]
    have hlen2 : (s.plates.eraseIdx s.currentPlateIndex).length = s.plates.length - 1 := by
      rw [List.length_eraseIdx]
      simp [hcur]
    refine ⟨rfl, renumberFrom_map_metadata 1 _, ?_, renumber_idsSequential _, rfl⟩
    simp only [renumber_length, hlen2]

theorem c7_deleteAt_spec_witness :
    (c7State.plates.length = 1 →
      (deleteCurrentPlate c7State).1 = c7State ∧
      (deleteCurrentPlate c7State).2 = some "You must have at least one plate.") ∧
    (1 < c7State.plates.length →
      (deleteCurrentPlate c7State).2 = none ∧
      (deleteCurrentPlate c7State).1.plates.map Plate.metadata
        = (c7State.plates.eraseIdx c7State.currentPlateIndex).map Plate.metadata ∧
      (deleteCurrentPlate c7State).1.plates.length = c7State.plates.length - 1 ∧
      idsSequential (deleteCurrentPlate c7State).1.plates ∧
      (deleteCurrentPlate c7State).1.currentPlateIndex = c7State.currentPlateIndex - 1) :=
  c7_deleteAt_spec c7State (by decide)

/-- C8: moving fails when the target index is out of range or the collection
    has a single plate, with the collection unchanged and an error reported;
    otherwise the plate at the current index is removed and reinserted at the
    target position, the plates are renumbered 1..N, and the target becomes
    the new active index. -/
theorem c8_moveTo_spec (s : AppState) (t : Int) (h : stateInv s) :
    ((s.plates.length = 1 ∨ t < 0 ∨ (s.plates.length : Int) ≤ t) →
      (moveCurrentPlate s t).1 = s ∧ (moveCurrentPlate s t).2 ≠ none) ∧
    (1 < s.plates.length → 0 ≤ t → t < (s.plates.length : Int) →
      (moveCurrentPlate s t).2 = none ∧
      (moveCurrentPlate s t).1.plates.map Plate.metadata
        = ((s.plates.eraseIdx s.currentPlateIndex).take t.toNat).map Plate.metadata
          ++ (s.plates.get ⟨s.currentPlateIndex, h.2.2⟩).metadata
          :: ((s.plates.eraseIdx s.currentPlateIndex).drop t.toNat).map Plate.metadata ∧
      idsSequential (moveCurrentPlate s t).1.plates ∧
      (moveCurrentPlate s t).1.plates.length = s.plates.length ∧
      (moveCurrentPlate s t).1.currentPlateIndex = t.toNat) := by
  obtain ⟨hids, hlen, hcur⟩ := h
  by_cases h1 : s.plates.length = 1
  · refine ⟨fun _ => ?_, fun hlt => absurd h1 (by omega)⟩
    rw [moveCurrentPlate, if_pos h1]
    exact ⟨rfl, by simp⟩
  · by_cases h2 : t < 0 ∨ (s.plates.length : Int) ≤ t
    · refine ⟨fun _ => ?_, fun hlt h3 h4 => ?_⟩
      · rw [moveCurrentPlate, if_neg h1, if_pos h2]
        exact ⟨rfl, by simp⟩
      · rcases h2 with h2 | h2 <;> omega
    · refine ⟨fun hh => ?_, fun hlt h3 h4 => ?_⟩
      · rcases hh with hh | hh | hh
        · exact absurd hh h1
        · exact absurd (Or.inl hh) h2
        · exact absurd (Or.inr hh) h2
      · rw [moveCurrentPlate, if_neg h1, if_neg h2, List.get?_eq_get hcur]
        have hlen2 : (s.plates.eraseIdx s.currentPlateIndex).length = s.plates.length - 1 := by
          rw [List.length_eraseIdx]
          simp [hcur]
        refine ⟨rfl, ?_, renumber_idsSequential _, ?_, rfl⟩
        · simp only [renumber, renumberFrom_map_metadata, List.map_append, List.map_cons]
        · simp only [renumber_length, insert_take_drop_length, hlen2]
          omega

theorem c8_moveTo_spec_witness :
    ((c7State.plates.length = 1 ∨ (5 : Int) < 0 ∨ (c7State.plates.length : Int) ≤ 5) →
      (moveCurrentPlate c7State 5).1 = c7State ∧ (moveCurrentPlate c7State 5).2 ≠ none) ∧
    (1 < c7State.plates.length → (0 : Int) ≤ 5 → (5 : Int) < (c7State.plates.length : Int) →
      (moveCurrentPlate c7State 5).2 = none ∧
      (moveCurrentPlate c7State 5).1.plates.map Plate.metadata
        = ((c7State.plates.eraseIdx c7State.currentPlateIndex).take (5 : Int).toNat).map
            Plate.metadata
          ++ (c7State.plates.get ⟨c7State.currentPlateIndex, (by decide : stateInv c7State).2.2⟩).metadata
          :: ((c7State.plates.eraseIdx c7State.currentPlateIndex).drop (5 : Int).toNat).map
            Plate.metadata ∧
      idsSequential (moveCurrentPlate c7State 5).1.plates ∧
      (moveCurrentPlate c7State 5).1.plates.length = c7State.plates.length ∧
      (moveCurrentPlate c7State 5).1.currentPlateIndex = (5 : Int).toNat) :=
  c8_moveTo_spec c7State 5 (by decide)

theorem setField_setField (d : WellMetadata) (f : MetaField) (v : String) :
    setField (setField d f v) f v = setField d f v := by
  cases f <;> rfl

theorem foldl_updateWellField_get? (sel : List String) (f : MetaField) (v : String)
    (m : Metadata) (j : Nat) :
    (sel.foldl (fun mm w => updateWellField mm w f v) m).get? j
      = (m.get? j).map (fun e => if e.1 ∈ sel then (e.1, setField e.2 f v) else e) := by
  induction sel generalizing m with
  | nil =>
    cases h : m.get? j with
    | none => rw [List.foldl_nil, h]; rfl
    | some e =>
      rw [List.foldl_nil, h, Option.map_some']
      rw [if_neg (List.not_mem_nil e.1)]
  | cons w ws ih =>
    rw [List.foldl_cons, ih, updateWellField, List.get?_map]
    cases h : m.get? j with
    | none => rfl
    | some e =>
      by_cases hw : e.1 = w
      · by_cases hws : w ∈ ws
        · simp [hw, hws, setField_setField]
        · simp [hw, hws]
      · by_cases hws : e.1 ∈ ws
        · simp [hw, hws]
        · simp [hw, hws]

theorem get?_set_self {α : Type} (l : List α) (i : Nat) (x : α) (h : i < l.length) :
    (l.set i x).get? i = some x := by
  rw [List.get?_set_eq, List.get?_eq_get h]
  rfl

/-- C9: applyBulkUpdate with an empty selection leaves the collection
    unchanged; with a non-empty selection it writes the given value into
    exactly the targeted field of exactly the selected wells of the active
    plate, leaving every other field of those wells, every unselected well,
    and every other plate unchanged. -/
theorem c9_applyBulkUpdate_spec (plates : List Plate) (cur : Nat) (sel : List String)
    (f f' : MetaField) (v : String) (i j : Nat) (w : String) (d : WellMetadata)
    (hcur : cur < plates.length)
    (hsel : ∀ x ∈ sel, x ∈ (plates.get ⟨cur, hcur⟩).metadata.map Prod.fst)
    (hj : plateMetaEntry plates cur j = some (w, d)) :
    (sel = [] → applyBulkUpdate plates cur sel f v = plates) ∧
    (applyBulkUpdate plates cur sel f v).length = plates.length ∧
    (i ≠ cur → (applyBulkUpdate plates cur sel f v).get? i = plates.get? i) ∧
    ((applyBulkUpdate plates cur sel f v).get? cur).map Plate.id
      = (plates.get? cur).map Plate.id ∧
    (w ∉ sel → plateMetaEntry (applyBulkUpdate plates cur sel f v) cur j = some (w, d)) ∧
    (w ∈ sel →
      plateMetaEntry (applyBulkUpdate plates cur sel f v) cur j
        = some (w, setField d f v)) ∧
    (w ∈ sel →
      (plateMetaEntry (applyBulkUpdate plates cur sel f v) cur j).map
          (fun e => getField e.2 f')
        = some (if f' = f then v else getField d f')) := by
  have hget : plates.get? cur = some (plates.get ⟨cur, hcur⟩) := List.get?_eq_get hcur
  by_cases hempty : sel.isEmpty
  · have hsel0 : sel = [] := List.isEmpty_iff.mp hempty
    subst hsel0
    have hid : applyBulkUpdate plates cur [] f v = plates := by
      rw [applyBulkUpdate]
      rfl
    refine ⟨fun _ => hid, by rw [hid], fun _ => by rw [hid], by rw [hid],
      fun _ => by rw [hid]; exact hj, ?_, ?_⟩ <;>
      intro hmem <;> exact absurd hmem (List.not_mem_nil w)
  · have hrw : applyBulkUpdate plates cur sel f v
        = plates.set cur
            { plates.get ⟨cur, hcur⟩ with
              metadata := sel.foldl (fun m x => updateWellField m x f v)
                (plates.get ⟨cur, hcur⟩).metadata } := by
      rw [applyBulkUpdate, if_neg hempty, hget]
    have hjold : (plates.get ⟨cur, hcur⟩).metadata.get? j = some (w, d) := by
      rw [plateMetaEntry, hget] at hj
      exact hj
    have hentry : plateMetaEntry (applyBulkUpdate plates cur sel f v) cur j
        = ((plates.get ⟨cur, hcur⟩).metadata.get? j).map
            (fun e => if e.1 ∈ sel then (e.1, setField e.2 f v) else e) := by
      rw [hrw, plateMetaEntry, get?_set_self _ _ _ hcur, Option.some_bind]
      show (sel.foldl (fun m x => updateWellField m x f v)
        (plates.get ⟨cur, hcur⟩).metadata).get? j = _
      rw [foldl_updateWellField_get?]
    refine ⟨?_, ?_, ?_, ?_, ?_, ?_, ?_⟩
    · intro hsel0
      subst hsel0
      simp at hempty
    · rw [hrw, List.length_set]
    · intro hne
      rw [hrw, List.get?_set_ne _ _ (fun hh => hne hh.symm)]
    · rw [hrw, get?_set_self _ _ _ hcur, hget]
      rfl
    · intro hnot
      rw [hentry, hjold]
      simp [hnot]
    · intro hmem
      rw [hentry, hjold]
      simp [hmem]
    · intro hmem
      rw [hentry, hjold]
      simp only [Option.map_some']
      rw [if_pos (by simpa using hmem)]
      simp only [Option.map_some', Option.some.injEq]
      exact getField_setField d f f' v

theorem c9_applyBulkUpdate_spec_witness :
    (["A1", "A2"] = ([] : List String) →
      applyBulkUpdate c9Plates 0 ["A1", "A2"] .dilution "1:100" = c9Plates) ∧
    (applyBulkUpdate c9Plates 0 ["A1", "A2"] .dilution "1:100").length = c9Plates.length ∧
    (3 ≠ 0 →
      (applyBulkUpdate c9Plates 0 ["A1", "A2"] .dilution "1:100").get? 3 = c9Plates.get? 3) ∧
    ((applyBulkUpdate c9Plates 0 ["A1", "A2"] .dilution "1:100").get? 0).map Plate.id
      = (c9Plates.get? 0).map Plate.id ∧
    ("A1" ∉ ["A1", "A2"] →
      plateMetaEntry (applyBulkUpdate c9Plates 0 ["A1", "A2"] .dilution "1:100") 0 0
        = some ("A1", DEFAULT_METADATA)) ∧
    ("A1" ∈ ["A1", "A2"] →
      plateMetaEntry (applyBulkUpdate c9Plates 0 ["A1", "A2"] .dilution "1:100") 0 0
        = some ("A1", setField DEFAULT_METADATA .dilution "1:100")) ∧
    ("A1" ∈ ["A1", "A2"] →
      (plateMetaEntry (applyBulkUpdate c9Plates 0 ["A1", "A2"] .dilution "1:100") 0 0).map
          (fun e => getField e.2 .notes)
        = some (if MetaField.notes = MetaField.dilution then "1:100"
                else getField DEFAULT_METADATA .notes)) :=
  c9_applyBulkUpdate_spec c9Plates 0 ["A1", "A2"] .dilution .notes "1:100" 3 0 "A1"
    DEFAULT_METADATA (by decide) (by decide) (by decide)

/-- C6: the join only ever changes negsel, anchor and receptor (written from
    Construct_1/2/3 of the first row whose Strain_Name equals base_strain);
    base_strain, nanobody, dilution and notes of every well are unchanged,
    wells with an empty base_strain or without a matching row are entirely
    unchanged, and plate ids, well keys and map sizes are all preserved. -/
theorem c6_join_frame_spec (csvData : List RefRow) (plates : List Plate)
    (i j : Nat) (w : String) (d : WellMetadata)
    (hj : plateMetaEntry plates i j = some (w, d)) :
    (searchStrainByNumber csvData plates).length = plates.length ∧
    ((searchStrainByNumber csvData plates).get? i).map Plate.id
      = (plates.get? i).map Plate.id ∧
    ((searchStrainByNumber csvData plates).get? i).map (fun p => p.metadata.length)
      = (plates.get? i).map (fun p => p.metadata.length) ∧
    (plateMetaEntry (searchStrainByNumber csvData plates) i j).map (fun e => e.1)
      = some w ∧
    (plateMetaEntry (searchStrainByNumber csvData plates) i j).map
        (fun e => e.2.base_strain) = some d.base_strain ∧
    (plateMetaEntry (searchStrainByNumber csvData plates) i j).map
        (fun e => e.2.nanobody) = some d.nanobody ∧
    (plateMetaEntry (searchStrainByNumber csvData plates) i j).map
        (fun e => e.2.dilution) = some d.dilution ∧
    (plateMetaEntry (searchStrainByNumber csvData plates) i j).map
        (fun e => e.2.notes) = some d.notes ∧
    (d.base_strain = "" →
      plateMetaEntry (searchStrainByNumber csvData plates) i j = some (w, d)) ∧
    (findRef csvData d.base_strain = none →
      plateMetaEntry (searchStrainByNumber csvData plates) i j = some (w, d)) ∧
    (plateMetaEntry (searchStrainByNumber csvData plates) i j).map
        (fun e => e.2.negsel)
      = some (if d.base_strain = "" then d.negsel
              else (findRef csvData d.base_strain).elim d.negsel
                (fun r => (r.lookup "Construct_1").getD "")) ∧
    (plateMetaEntry (searchStrainByNumber csvData plates) i j).map
        (fun e => e.2.anchor)
      = some (if d.base_strain = "" then d.anchor
              else (findRef csvData d.base_strain).elim d.anchor
                (fun r => (r.lookup "Construct_2").getD "")) ∧
    (plateMetaEntry (searchStrainByNumber csvData plates) i j).map
        (fun e => e.2.receptor)
      = some (if d.base_strain = "" then d.receptor
              else (findRef csvData d.base_strain).elim d.receptor
                (fun r => (r.lookup "Construct_3").getD "")) := by
  obtain ⟨p, hp, hpj⟩ : ∃ p, plates.get? i = some p ∧ p.metadata.get? j = some (w, d) := by
    rw [plateMetaEntry] at hj
    cases hp : plates.get? i with
    | none => rw [hp] at hj; exact absurd hj (by simp)
    | some p =>
      rw [hp, Option.some_bind] at hj
      exact ⟨p, rfl, hj⟩
  have hPi : (searchStrainByNumber csvData plates).get? i
      = some { p with metadata := p.metadata.map (fun e => (e.1, joinWell csvData e.2)) } := by
    rw [searchStrainByNumber, List.get?_map, hp, Option.map_some']
  have hPj : plateMetaEntry (searchStrainByNumber csvData plates) i j
      = some (w, joinWell csvData d) := by
    rw [plateMetaEntry, hPi, Option.some_bind]
    show (p.metadata.map (fun e => (e.1, joinWell csvData e.2))).get? j = _
    rw [List.get?_map, hpj, Option.map_some']
  refine ⟨by rw [searchStrainByNumber, List.length_map], by rw [hPi, hp]; rfl,
    by rw [hPi, hp, Option.map_some', Option.map_some', List.length_map],
    by rw [hPj]; rfl, ?_, ?_, ?_, ?_, ?_, ?_, ?_, ?_, ?_⟩ <;>
    rw [hPj] <;> rw [joinWell]
  · by_cases hb : d.base_strain = ""
    · rw [if_pos hb]
      rfl
    · rw [if_neg hb]
      cases findRef csvData d.base_strain <;> rfl
  · by_cases hb : d.base_strain = ""
    · rw [if_pos hb]
      rfl
    · rw [if_neg hb]
      cases findRef csvData d.base_strain <;> rfl
  · by_cases hb : d.base_strain = ""
    · rw [if_pos hb]
      rfl
    · rw [if_neg hb]
      cases findRef csvData d.base_strain <;> rfl
  · by_cases hb : d.base_strain = ""
    · rw [if_pos hb]
      rfl
    · rw [if_neg hb]
      cases findRef csvData d.base_strain <;> rfl
  · intro hb
    rw [if_pos hb]
  · intro hfind
    by_cases hb : d.base_strain = ""
    · rw [if_pos hb]
    · rw [if_neg hb, hfind]
  · by_cases hb : d.base_strain = ""
    · rw [if_pos hb, if_pos hb]
      rfl
    · rw [if_neg hb, if_neg hb]
      cases findRef csvData d.base_strain <;> rfl
  · by_cases hb : d.base_strain = ""
    · rw [if_pos hb, if_pos hb]
      rfl
    · rw [if_neg hb, if_neg hb]
      cases findRef csvData d.base_strain <;> rfl
  · by_cases hb : d.base_strain = ""
    · rw [if_pos hb, if_pos hb]
      rfl
    · rw [if_neg hb, if_neg hb]
      cases findRef csvData d.base_strain <;> rfl

theorem c6_join_frame_spec_witness :
    (searchStrainByNumber c6Table c6Plates).length = c6Plates.length ∧
    ((searchStrainByNumber c6Table c6Plates).get? 0).map Plate.id
      = (c6Plates.get? 0).map Plate.id ∧
    ((searchStrainByNumber c6Table c6Plates).get? 0).map (fun p => p.metadata.length)
      = (c6Plates.get? 0).map (fun p => p.metadata.length) ∧
    (plateMetaEntry (searchStrainByNumber c6Table c6Plates) 0 0).map (fun e => e.1)
      = some "A1" ∧
    (plateMetaEntry (searchStrainByNumber c6Table c6Plates) 0 0).map
        (fun e => e.2.base_strain) = some c6Well.base_strain ∧
    (plateMetaEntry (searchStrainByNumber c6Table c6Plates) 0 0).map
        (fun e => e.2.nanobody) = some c6Well.nanobody ∧
    (plateMetaEntry (searchStrainByNumber c6Table c6Plates) 0 0).map
        (fun e => e.2.dilution) = some c6Well.dilution ∧
    (plateMetaEntry (searchStrainByNumber c6Table c6Plates) 0 0).map
        (fun e => e.2.notes) = some c6Well.notes ∧
    (c6Well.base_strain = "" →
      plateMetaEntry (searchStrainByNumber c6Table c6Plates) 0 0 = some ("A1", c6Well)) ∧
    (findRef c6Table c6Well.base_strain = none →
      plateMetaEntry (searchStrainByNumber c6Table c6Plates) 0 0 = some ("A1", c6Well)) ∧
    (plateMetaEntry (searchStrainByNumber c6Table c6Plates) 0 0).map
        (fun e => e.2.negsel)
      = some (if c6Well.base_strain = "" then c6Well.negsel
              else (findRef c6Table c6Well.base_strain).elim c6Well.negsel
                (fun r => (r.lookup "Construct_1").getD "")) ∧
    (plateMetaEntry (searchStrainByNumber c6Table c6Plates) 0 0).map
        (fun e => e.2.anchor)
      = some (if c6Well.base_strain = "" then c6Well.anchor
              else (findRef c6Table c6Well.base_strain).elim c6Well.anchor
                (fun r => (r.lookup "Construct_2").getD "")) ∧
    (plateMetaEntry (searchStrainByNumber c6Table c6Plates) 0 0).map
        (fun e => e.2.receptor)
      = some (if c6Well.base_strain = "" then c6Well.receptor
              else (findRef c6Table c6Well.base_strain).elim c6Well.receptor
                (fun r => (r.lookup "Construct_3").getD "")) :=
  c6_join_frame_spec c6Table c6Plates 0 0 "A1" c6Well (by decide)

/-- C4 evaluation: on a three-row grid the loader emits the header row
    itself (row 2, mapped onto its own header names) as the first data
    record, followed by the genuine data row; the claim says data starts at
    row 3 only. -/
theorem c4_header_row_included_eval :
    handleCsvUpload [["Banner"], ["Strain_Name", "Construct_1"], ["S1", "N"]]
      = some [[("Strain_Name", "Strain_Name"), ("Construct_1", "Construct_1")],
              [("Strain_Name", "S1"), ("Construct_1", "N")]] := by decide

/-- C10: Layout-format rows that precede the first Block marker contribute
    nothing; the import result is the result of importing the rows from the
    first marker on. -/
theorem c10_layout_prefix_ignored (pre rest : List (List String))
    (h : ∀ row ∈ pre, isBlockRow row = false) :
    layoutFromGrid (pre ++ rest) = layoutFromGrid rest := by
  have hfold : pre.foldl layoutStep ([], none) = ([], none) := by
    induction pre with
    | nil => rfl
    | cons r rs ih =>
      rw [List.foldl_cons]
      have hstep : layoutStep ([], none) r = ([], none) := by
        rw [layoutStep, if_neg (by simp [h r (List.mem_cons_self r rs)])]
      rw [hstep]
      exact ih (fun row hrow => h row (List.mem_cons_of_mem r hrow))
  rw [layoutFromGrid, layoutFromGrid, List.foldl_append, hfold]

theorem c10_layout_prefix_ignored_witness :
    layoutFromGrid ([["A", "S1", "S2"], ["junk"]] ++ [["Block 2"], ["A", "X1"]])
      = layoutFromGrid [["Block 2"], ["A", "X1"]] :=
  c10_layout_prefix_ignored [["A", "S1", "S2"], ["junk"]] [["Block 2"], ["A", "X1"]]
    (by decide)

